import Mathlib

/-!
Verification development for the hone CLI test runner's execution engine.

Text is modelled as `List Char` (JavaScript strings are sequences of UTF-16
code units; the engine only manipulates them through indexing, slicing,
splitting and concatenation, which `List Char` models faithfully for the
code points involved).  JavaScript numbers that the engine produces and
compares are modelled as `Int` (integer counters, exit codes, timestamps)
and `ℚ` (duration literals such as `1.5`; the conversions the code performs
on the values relevant here are exact, so the rational model is faithful).
-/

namespace Hone

/-! ## Basic text helpers (JS string primitives) -/

/-- Decimal digit test, JS regex `\d` / manual `'0' <= c <= '9'` checks. -/
def isDigitChar (c : Char) : Bool :=
  ('0' ≤ c) && (c ≤ '9')

/-- Whitespace as recognised by JS `trim`, `\s`, and `parseInt` skipping
(space, tab, newline, carriage return, vertical tab, form feed). -/
def isJsSpace (c : Char) : Bool :=
  c = ' ' || c = '\t' || c = '\n' || c = '\r' || c = '\x0b' || c = '\x0c'

/-- JS `String.prototype.trimStart`. -/
def jsTrimStart (s : List Char) : List Char :=
  s.dropWhile isJsSpace

/-- JS `String.prototype.trimEnd`. -/
def jsTrimEnd (s : List Char) : List Char :=
  (s.reverse.dropWhile isJsSpace).reverse

/-- JS `String.prototype.trim`. -/
def jsTrim (s : List Char) : List Char :=
  jsTrimEnd (jsTrimStart s)

/-- JS `String.prototype.split` with a single-character separator:
splits at every occurrence, keeping empty pieces. -/
def splitOnCharAux (sep : Char) : List Char → List Char → List (List Char)
  | [], acc => [acc.reverse]
  | c :: cs, acc =>
    if c = sep then acc.reverse :: splitOnCharAux sep cs []
    else splitOnCharAux sep cs (c :: acc)

def splitOnChar (sep : Char) (s : List Char) : List (List Char) :=
  splitOnCharAux sep s []

/-- Index of the first occurrence of `needle` as a contiguous run in `hay`
(JS `String.prototype.indexOf` for a substring), `none` when absent. -/
def firstIndexOfSeq (needle : List Char) : List Char → Option Nat
  | [] => if needle = [] then some 0 else none
  | c :: cs =>
    if needle.isPrefixOf (c :: cs) then some 0
    else (firstIndexOfSeq needle cs).map (· + 1)

/-- Index of the first occurrence of a single character (JS `indexOf`). -/
def firstIndexOfChar (ch : Char) : List Char → Option Nat
  | [] => none
  | c :: cs =>
    if c = ch then some 0
    else (firstIndexOfChar ch cs).map (· + 1)

/-- Numeric value of a decimal digit character. -/
def digitVal (c : Char) : Nat :=
  c.toNat - '0'.toNat

/-- Value of a run of decimal digit characters. -/
def digitsToNat (ds : List Char) : Nat :=
  ds.foldl (fun a c => a * 10 + digitVal c) 0

/-- JS `parseInt(s, 10)`: skip leading whitespace, optional sign, then the
maximal run of leading decimal digits; `NaN` (here `none`) when that run is
empty, otherwise the signed value (trailing garbage is ignored). -/
def jsParseInt (s : List Char) : Option Int :=
  let t := s.dropWhile isJsSpace
  let signAndRest : Int × List Char :=
    match t with
    | '-' :: rest => (-1, rest)
    | '+' :: rest => (1, rest)
    | _ => (1, t)
  let ds := signAndRest.2.takeWhile isDigitChar
  if ds = [] then none
  else some (signAndRest.1 * (digitsToNat ds : Int))

/-- JS `String.prototype.includes` (substring containment). -/
def containsSeq (hay needle : List Char) : Bool :=
  (firstIndexOfSeq needle hay).isSome

/-! ## Sentinel protocol (`src/core/runner/sentinel.ts`) -/

/-- `UNIT_SEPARATOR`, the ASCII unit separator. -/
def unitSeparator : Char := '\x1f'

/-- `SENTINEL_PREFIX`. -/
def sentinelMark : List Char := "__HONE__".toList

/-- `SentinelData`: sentinel data parsed from output. -/
structure SentinelData where
  runId : List Char
  exitCode : Int
  endTimestampMs : Int
deriving DecidableEq, Repr

/-- `parseSentinel(line)`: parse a sentinel line from output.  Requires the
literal prefix, exactly 4 unit-separator-delimited fields, non-empty
(truthy) fields, and both numeric fields non-`NaN` under `parseInt`. -/
def parseSentinel (line : List Char) : Option SentinelData :=
  if sentinelMark.isPrefixOf line then
    match splitOnChar unitSeparator line with
    | [_, runId, exitCodeStr, timestampStr] =>
      if runId = [] || exitCodeStr = [] || timestampStr = [] then none
      else
        match jsParseInt exitCodeStr, jsParseInt timestampStr with
        | some exitCode, some endTimestampMs =>
          some { runId := runId, exitCode := exitCode, endTimestampMs := endTimestampMs }
        | _, _ => none
    | _ => none
  else none

/-- `containsSentinel(line)`. -/
def containsSentinel (line : List Char) : Bool :=
  containsSeq line sentinelMark

/-- Result shape of `extractSentinel`. -/
structure ExtractResult where
  found : Bool
  output : List Char
  sentinel : Option SentinelData
  remaining : List Char
deriving DecidableEq, Repr

/-- `extractSentinel(buffer, expectedRunId)`: find the first occurrence of
the sentinel prefix, require a complete line (terminating newline), parse
it, require the embedded run id to equal the expected one, and on success
return the preceding output (one trailing newline trimmed), the parsed
data, and the rest of the buffer after the sentinel line. -/
def extractSentinel (buffer expectedRunId : List Char) : ExtractResult :=
  match firstIndexOfSeq sentinelMark buffer with
  | none => { found := false, output := buffer, sentinel := none, remaining := [] }
  | some sentinelIndex =>
    let output := buffer.take sentinelIndex
    let afterSentinel := buffer.drop sentinelIndex
    match firstIndexOfChar '\n' afterSentinel with
    | none => { found := false, output := buffer, sentinel := none, remaining := [] }
    | some newlineIndex =>
      let sentinelLine := afterSentinel.take newlineIndex
      let remaining := afterSentinel.drop (newlineIndex + 1)
      match parseSentinel (jsTrim sentinelLine) with
      | none => { found := false, output := buffer, sentinel := none, remaining := [] }
      | some parsed =>
        if parsed.runId ≠ expectedRunId then
          { found := false, output := buffer, sentinel := none, remaining := [] }
        else
          let cleanOutput := if output.getLast? = some '\n' then output.dropLast else output
          { found := true, output := cleanOutput, sentinel := some parsed,
            remaining := remaining }

/-! ## Lexer (`src/core/parser/lexer.ts`) -/

inductive TokenType
  | PRAGMA | COMMENT | TEST | RUN | ASSERT | ENV | EMPTY | UNKNOWN
deriving DecidableEq, Repr

/-- A classified line. -/
structure Token where
  type : TokenType
  content : List Char
  line : Nat
deriving DecidableEq, Repr

/-- `classifyLine(line, lineNumber)`: classify a line by its trimmed prefix. -/
def classifyLine (line : List Char) (lineNumber : Nat) : Token :=
  let trimmed := jsTrim line
  if trimmed = [] then { type := .EMPTY, content := trimmed, line := lineNumber }
  else if ("#!".toList).isPrefixOf trimmed then
    { type := .PRAGMA, content := trimmed, line := lineNumber }
  else if ("#".toList).isPrefixOf trimmed then
    { type := .COMMENT, content := trimmed, line := lineNumber }
  else if ("TEST ".toList).isPrefixOf trimmed then
    { type := .TEST, content := trimmed, line := lineNumber }
  else if ("RUN ".toList).isPrefixOf trimmed then
    { type := .RUN, content := trimmed, line := lineNumber }
  else if ("ASSERT ".toList).isPrefixOf trimmed then
    { type := .ASSERT, content := trimmed, line := lineNumber }
  else if ("ENV ".toList).isPrefixOf trimmed then
    { type := .ENV, content := trimmed, line := lineNumber }
  else { type := .UNKNOWN, content := trimmed, line := lineNumber }

inductive QuoteType
  | single | double
deriving DecidableEq, Repr

/-- A parsed string literal (value, raw text including quotes, quote kind). -/
structure StringLiteral where
  value : List Char
  raw : List Char
  quoteType : QuoteType
deriving DecidableEq, Repr

/-- Expansion of one escaped character inside a string literal: double
quotes interpret `n t " \`, anything else keeps the backslash; single
quotes always keep the backslash. -/
def pslPiece (isDouble : Bool) (c : Char) : List Char :=
  if isDouble then
    if c = 'n' then ['\n']
    else if c = 't' then ['\t']
    else if c = '"' then ['"']
    else if c = '\\' then ['\\']
    else ['\\', c]
  else ['\\', c]

/-- The character-consuming loop of `parseStringLiteral`: returns the
accumulated value and the number of characters consumed (including the
closing quote), or `none` for an unterminated string. -/
def pslLoop (q : Char) (isDouble : Bool) :
    List Char → List Char → Bool → Option (List Char × Nat)
  | [], _, _ => none
  | c :: cs, value, escaped =>
    if escaped then
      match pslLoop q isDouble cs (value ++ pslPiece isDouble c) false with
      | none => none
      | some (v, k) => some (v, k + 1)
    else if c = '\\' then
      match pslLoop q isDouble cs value true with
      | none => none
      | some (v, k) => some (v, k + 1)
    else if c = q then some (value, 1)
    else
      match pslLoop q isDouble cs (value ++ [c]) false with
      | none => none
      | some (v, k) => some (v, k + 1)

/-- `parseStringLiteral(input, startIndex)`: parse a single- or
double-quoted string literal; returns the literal and the end index. -/
def parseStringLiteral (input : List Char) (startIndex : Nat) :
    Option (StringLiteral × Nat) :=
  match input.drop startIndex with
  | [] => none
  | startChar :: rest =>
    if startChar = '"' ∨ startChar = '\'' then
      match pslLoop startChar (startChar = '"') rest [] false with
      | none => none
      | some (value, k) =>
        some ({ value := value,
                raw := (input.drop startIndex).take (k + 1),
                quoteType := if startChar = '"' then .double else .single },
              startIndex + 1 + k)
    else none

/-- A parsed regex literal `/pattern/flags`. -/
structure RegexLiteral where
  pattern : List Char
  flags : List Char
  raw : List Char
deriving DecidableEq, Repr

/-- Regex flag characters `[gimsuy]`. -/
def isRegexFlag (c : Char) : Bool :=
  c = 'g' || c = 'i' || c = 'm' || c = 's' || c = 'u' || c = 'y'

/-- The pattern-consuming loop of `parseRegexLiteral`: returns the pattern
and the number of characters consumed including the closing slash. -/
def prlLoop : List Char → List Char → Bool → Option (List Char × Nat)
  | [], _, _ => none
  | c :: cs, pat, escaped =>
    if escaped then
      match prlLoop cs (pat ++ [c]) false with
      | none => none
      | some (p, k) => some (p, k + 1)
    else if c = '\\' then
      match prlLoop cs (pat ++ [c]) true with
      | none => none
      | some (p, k) => some (p, k + 1)
    else if c = '/' then some (pat, 1)
    else
      match prlLoop cs (pat ++ [c]) false with
      | none => none
      | some (p, k) => some (p, k + 1)

/-- `parseRegexLiteral(input, startIndex)`. -/
def parseRegexLiteral (input : List Char) (startIndex : Nat) :
    Option (RegexLiteral × Nat) :=
  match input.drop startIndex with
  | '/' :: rest =>
    match prlLoop rest [] false with
    | none => none
    | some (pat, k) =>
      let flags := (input.drop (startIndex + 1 + k)).takeWhile isRegexFlag
      let endIndex := startIndex + 1 + k + flags.length
      some ({ pattern := pat, flags := flags,
              raw := (input.drop startIndex).take (endIndex - startIndex) },
            endIndex)
  | _ => none

inductive DurationUnit
  | ms | s
deriving DecidableEq, Repr

/-- A parsed duration literal.  The numeric value is modelled as `ℚ`
(JS parses it with `parseFloat`; for the decimal literals accepted here the
value is determined exactly by the digits). -/
structure Duration where
  value : ℚ
  unit : DurationUnit
  raw : List Char
deriving DecidableEq, Repr

/-- JS `parseFloat` restricted to strings of digits and dots (the only
inputs the lexer feeds it): value of the maximal leading
`digits [. digits]` prefix, `NaN` (`none`) when that prefix has no digit. -/
def jsParseFloatDigitsDots (s : List Char) : Option ℚ :=
  let intPart := s.takeWhile isDigitChar
  match s.drop intPart.length with
  | '.' :: r =>
    let fracPart := r.takeWhile isDigitChar
    if intPart = [] ∧ fracPart = [] then none
    else some ((digitsToNat intPart : ℚ) +
      (digitsToNat fracPart : ℚ) / ((10 : ℚ) ^ fracPart.length))
  | _ => if intPart = [] then none else some (digitsToNat intPart : ℚ)

/-- `skipWhitespace(input, startIndex)` (spaces only). -/
def skipWhitespace (input : List Char) (startIndex : Nat) : Nat :=
  startIndex + ((input.drop startIndex).takeWhile (fun c => c = ' ')).length

/-- Lowercase letter test, JS regex `[a-z]`. -/
def isLowerAlpha (c : Char) : Bool :=
  ('a' ≤ c) && (c ≤ 'z')

/-- `parseDuration(input, startIndex)`: skip spaces, read a digits/dots
run, `parseFloat` it, then read a lowercase unit which must be `ms` or `s`. -/
def parseDuration (input : List Char) (startIndex : Nat) :
    Option (Duration × Nat) :=
  let i := skipWhitespace input startIndex
  let numRun := (input.drop i).takeWhile (fun c => isDigitChar c || c = '.')
  if numRun = [] then none
  else
    match jsParseFloatDigitsDots numRun with
    | none => none
    | some value =>
      let j := i + numRun.length
      let unitRun := (input.drop j).takeWhile isLowerAlpha
      let endIndex := j + unitRun.length
      if unitRun = "ms".toList then
        some ({ value := value, unit := .ms,
                raw := jsTrim ((input.drop startIndex).take (endIndex - startIndex)) },
              endIndex)
      else if unitRun = "s".toList then
        some ({ value := value, unit := .s,
                raw := jsTrim ((input.drop startIndex).take (endIndex - startIndex)) },
              endIndex)
      else none

/-- `parseNumber(input, startIndex)`: skip spaces, optional minus sign,
then a run of digits. -/
def parseNumber (input : List Char) (startIndex : Nat) : Option (Int × Nat) :=
  let i := skipWhitespace input startIndex
  let negAndStart : Bool × Nat :=
    match input.drop i with
    | '-' :: _ => (true, i + 1)
    | _ => (false, i)
  let ds := (input.drop negAndStart.2).takeWhile isDigitChar
  if ds = [] then none
  else
    some ((if negAndStart.1 then -(digitsToNat ds : Int) else (digitsToNat ds : Int)),
      negAndStart.2 + ds.length)

/-- `matchWord(input, startIndex, word)`: the word occurs at the position
and is followed by end-of-input, a space, or a dot. -/
def matchWord (input : List Char) (startIndex : Nat) (word : List Char) : Bool :=
  ((input.drop startIndex).take word.length = word) &&
  (match input.drop (startIndex + word.length) with
   | [] => true
   | c :: _ => c = ' ' || c = '.')

inductive CompOp
  | eq | ne | le | ge | lt | gt
deriving DecidableEq, Repr

/-- Display text of a comparison operator (as in the source's strings). -/
def compOpChars : CompOp → List Char
  | .eq => "==".toList
  | .ne => "!=".toList
  | .le => "<=".toList
  | .ge => ">=".toList
  | .lt => "<".toList
  | .gt => ">".toList

/-- `parseComparisonOperator(input, startIndex)`: try `== != <= >= < >`
in that order after skipping spaces. -/
def parseComparisonOperator (input : List Char) (startIndex : Nat) :
    Option (CompOp × Nat) :=
  let i := skipWhitespace input startIndex
  let two := (input.drop i).take 2
  if two = "==".toList then some (.eq, i + 2)
  else if two = "!=".toList then some (.ne, i + 2)
  else if two = "<=".toList then some (.le, i + 2)
  else if two = ">=".toList then some (.ge, i + 2)
  else if (input.drop i).take 1 = "<".toList then some (.lt, i + 1)
  else if (input.drop i).take 1 = ">".toList then some (.gt, i + 1)
  else none

/-! ## AST and error collection (`src/core/parser/ast.ts`, `errors.ts`) -/

structure ParseError where
  message : List Char
  line : Nat
  filename : List Char
deriving DecidableEq, Repr

structure ParseWarning where
  message : List Char
  line : Nat
  filename : List Char
deriving DecidableEq, Repr

/-- `ParseErrorCollector`: appends errors and warnings, never drops any. -/
structure Collector where
  filename : List Char
  errors : List ParseError
  warnings : List ParseWarning
deriving DecidableEq, Repr

def Collector.addError (c : Collector) (message : List Char) (line : Nat) : Collector :=
  { c with errors := c.errors ++ [{ message := message, line := line, filename := c.filename }] }

def Collector.addWarning (c : Collector) (message : List Char) (line : Nat) : Collector :=
  { c with warnings := c.warnings ++ [{ message := message, line := line, filename := c.filename }] }

inductive OutputSelector
  | stdout | stdoutRaw | stderr
deriving DecidableEq, Repr

/-- Display text of an output selector. -/
def selectorChars : OutputSelector → List Char
  | .stdout => "stdout".toList
  | .stdoutRaw => "stdout.raw".toList
  | .stderr => "stderr".toList

inductive OutputPredicate
  | contains (value : StringLiteral)
  | matches (value : RegexLiteral)
  | equals (operator : CompOp) (value : StringLiteral)
deriving DecidableEq, Repr

structure ExitCodePredicate where
  operator : CompOp
  value : Int
deriving DecidableEq, Repr

structure DurationPredicate where
  operator : CompOp
  value : Duration
deriving DecidableEq, Repr

inductive FilePredicate
  | fileExists
  | contains (value : StringLiteral)
  | matches (value : RegexLiteral)
  | equals (operator : CompOp) (value : StringLiteral)
deriving DecidableEq, Repr

inductive AssertionExpression
  | output (target : Option (List Char)) (selector : OutputSelector)
      (predicate : OutputPredicate)
  | exitCode (target : Option (List Char)) (predicate : ExitCodePredicate)
  | duration (target : Option (List Char)) (predicate : DurationPredicate)
  | file (path : StringLiteral) (predicate : FilePredicate)
deriving DecidableEq, Repr

inductive PragmaType
  | shell | env | timeout | unknown
deriving DecidableEq, Repr

structure PragmaNode where
  pragmaType : PragmaType
  key : Option (List Char)
  value : List Char
  line : Nat
  raw : List Char
deriving DecidableEq, Repr

inductive ASTNode
  | pragma (node : PragmaNode)
  | comment (text : List Char) (line : Nat)
  | test (name : List Char) (line : Nat)
  | run (name : Option (List Char)) (command : List Char) (line : Nat)
  | assert (expression : AssertionExpression) (line : Nat) (raw : List Char)
  | env (key : List Char) (value : List Char) (line : Nat)
deriving DecidableEq, Repr

/-! ## Parser (`src/core/parser/index.ts`) -/

/-- `parsePragma(content, line, collector)`. -/
def parsePragma (content : List Char) (line : Nat) (c : Collector) :
    Option PragmaNode × Collector :=
  let rest := jsTrim (content.drop 2)
  match firstIndexOfChar ':' rest with
  | none => (none, c.addError ("Invalid pragma syntax: ".toList ++ content) line)
  | some colonIndex =>
    let pragmaKey := (jsTrim (rest.take colonIndex)).map Char.toLower
    let pragmaValue := jsTrim (rest.drop (colonIndex + 1))
    if pragmaKey = "shell".toList then
      (some { pragmaType := .shell, key := none, value := pragmaValue,
              line := line, raw := content }, c)
    else if pragmaKey = "env".toList then
      match firstIndexOfChar '=' pragmaValue with
      | none => (none, c.addError ("Invalid env pragma: ".toList ++ content) line)
      | some eqIndex =>
        (some { pragmaType := .env, key := some (jsTrim (pragmaValue.take eqIndex)),
                value := pragmaValue.drop (eqIndex + 1), line := line, raw := content }, c)
    else if pragmaKey = "timeout".toList then
      match parseDuration pragmaValue 0 with
      | none =>
        (none, c.addError ("Invalid timeout format: ".toList ++ pragmaValue ++
          ". Expected format: <number>s or <number>ms".toList) line)
      | some _ =>
        (some { pragmaType := .timeout, key := none, value := pragmaValue,
                line := line, raw := content }, c)
    else
      (some { pragmaType := .unknown, key := none, value := rest,
              line := line, raw := content },
       c.addWarning ("Unknown pragma: ".toList ++ pragmaKey) line)

/-- ASCII letter test. -/
def isAlphaChar (c : Char) : Bool :=
  (('a' ≤ c) && (c ≤ 'z')) || (('A' ≤ c) && (c ≤ 'Z'))

/-- Valid test-name characters, JS regex class `[a-zA-Z0-9 _-]`. -/
def isTestNameChar (c : Char) : Bool :=
  isAlphaChar c || isDigitChar c || c = ' ' || c = '_' || c = '-'

/-- `parseTest(content, line, collector)`. -/
def parseTest (content : List Char) (line : Nat) (c : Collector) :
    Option ASTNode × Collector :=
  let rest := content.drop 5
  match parseStringLiteral rest 0 with
  | none => (none, c.addError ("Invalid TEST syntax: expected quoted test name".toList) line)
  | some (lit, _) =>
    let name := lit.value
    if name ≠ [] ∧ name.all isTestNameChar then
      (some (.test name line), c)
    else
      (none, c.addError ("Invalid test name: \"".toList ++ name ++
        ("\". Names can only contain alphanumeric characters, spaces, dashes, and underscores".toList)) line)

/-- First character of a JS identifier-ish run name, regex `[a-zA-Z_]`. -/
def isIdentStart (c : Char) : Bool :=
  isAlphaChar c || c = '_'

/-- Subsequent run-name characters, regex `[a-zA-Z0-9_-]`. -/
def isRunNameChar (c : Char) : Bool :=
  isAlphaChar c || isDigitChar c || c = '_' || c = '-'

/-- The regex `^([a-zA-Z_][a-zA-Z0-9_-]*):\s*` of `parseRun`: returns the
captured name and the total number of characters matched. -/
def matchRunName (s : List Char) : Option (List Char × Nat) :=
  match s with
  | [] => none
  | c :: cs =>
    if isIdentStart c then
      let restIdent := cs.takeWhile isRunNameChar
      match cs.drop restIdent.length with
      | ':' :: after =>
        some (c :: restIdent, 1 + restIdent.length + 1 + (after.takeWhile isJsSpace).length)
      | _ => none
    else none

/-- `parseRun(content, line, collector, runNames)`. -/
def parseRun (content : List Char) (line : Nat) (c : Collector)
    (runNames : List (List Char)) :
    Option ASTNode × Collector × List (List Char) :=
  let rest := content.drop 4
  match matchRunName rest with
  | some (name, consumed) =>
    let command := rest.drop consumed
    if name ∈ runNames then
      (none, c.addError ("Duplicate RUN name: \"".toList ++ name ++
        ("\". RUN names must be unique across the entire file".toList)) line, runNames)
    else if jsTrim command = [] then
      (none, c.addError ("Empty command in RUN statement".toList) line, name :: runNames)
    else
      (some (.run (some name) (jsTrim command) line), c, name :: runNames)
  | none =>
    if jsTrim rest = [] then
      (none, c.addError ("Empty command in RUN statement".toList) line, runNames)
    else
      (some (.run none (jsTrim rest) line), c, runNames)

/-- Environment-variable name characters after the first, regex `[a-zA-Z0-9_]`. -/
def isEnvKeyChar (c : Char) : Bool :=
  isAlphaChar c || isDigitChar c || c = '_'

/-- `parseEnv(content, line, collector)`. -/
def parseEnv (content : List Char) (line : Nat) (c : Collector) :
    Option ASTNode × Collector :=
  let rest := content.drop 4
  match firstIndexOfChar '=' rest with
  | none => (none, c.addError ("Invalid ENV syntax: expected KEY=value".toList) line)
  | some eqIndex =>
    let key := jsTrim (rest.take eqIndex)
    let value := rest.drop (eqIndex + 1)
    if key = [] then
      (none, c.addError ("Invalid ENV syntax: empty key".toList) line)
    else
      match key with
      | k :: ks =>
        if isIdentStart k && ks.all isEnvKeyChar then
          (some (.env key value line), c)
        else
          (none, c.addError ("Invalid environment variable name: \"".toList ++ key ++
            ("\". Names must start with a letter or underscore and contain only alphanumeric characters and underscores".toList)) line)
      | [] => (none, c.addError ("Invalid ENV syntax: empty key".toList) line)

/-- `parseOutputAssertion(input, startIndex, selector, target, line, collector)`. -/
def parseOutputAssertion (input : List Char) (startIndex : Nat)
    (selector : OutputSelector) (target : Option (List Char)) (line : Nat)
    (c : Collector) : Option AssertionExpression × Collector :=
  let i := skipWhitespace input startIndex
  if matchWord input i ("contains".toList) then
    match parseStringLiteral input (skipWhitespace input (i + 8)) with
    | none => (none, c.addError ("Expected quoted string after \"contains\"".toList) line)
    | some (lit, _) => (some (.output target selector (.contains lit)), c)
  else if matchWord input i ("matches".toList) then
    match parseRegexLiteral input (skipWhitespace input (i + 7)) with
    | none => (none, c.addError ("Expected regex literal after \"matches\"".toList) line)
    | some (lit, _) => (some (.output target selector (.matches lit)), c)
  else
    match parseComparisonOperator input i with
    | some (op, endIndex) =>
      if op = .eq ∨ op = .ne then
        match parseStringLiteral input (skipWhitespace input endIndex) with
        | none =>
          (none, c.addError ("Expected quoted string after \"".toList ++
            compOpChars op ++ ("\"".toList)) line)
        | some (lit, _) => (some (.output target selector (.equals op lit)), c)
      else
        (none, c.addError ("Expected predicate (contains, matches, ==, !=) after \"".toList ++
          selectorChars selector ++ ("\"".toList)) line)
    | none =>
      (none, c.addError ("Expected predicate (contains, matches, ==, !=) after \"".toList ++
        selectorChars selector ++ ("\"".toList)) line)

/-- `parseExitCodeAssertion(input, startIndex, target, line, collector)`. -/
def parseExitCodeAssertion (input : List Char) (startIndex : Nat)
    (target : Option (List Char)) (line : Nat) (c : Collector) :
    Option AssertionExpression × Collector :=
  match parseComparisonOperator input startIndex with
  | some (op, endIndex) =>
    if op = .eq ∨ op = .ne then
      match parseNumber input endIndex with
      | none =>
        (none, c.addError ("Expected number after \"".toList ++ compOpChars op ++
          ("\"".toList)) line)
      | some (v, _) =>
        (some (.exitCode target { operator := op, value := v }), c)
    else (none, c.addError ("Expected == or != after \"exit_code\"".toList) line)
  | none => (none, c.addError ("Expected == or != after \"exit_code\"".toList) line)

/-- `parseDurationAssertion(input, startIndex, target, line, collector)`. -/
def parseDurationAssertion (input : List Char) (startIndex : Nat)
    (target : Option (List Char)) (line : Nat) (c : Collector) :
    Option AssertionExpression × Collector :=
  match parseComparisonOperator input startIndex with
  | none => (none, c.addError ("Expected comparison operator after \"duration\"".toList) line)
  | some (op, endIndex) =>
    match parseDuration input endIndex with
    | none =>
      (none, c.addError ("Expected duration value (e.g., 200ms, 1.5s) after \"".toList ++
        compOpChars op ++ ("\"".toList)) line)
    | some (dur, _) =>
      (some (.duration target { operator := op, value := dur }), c)

/-- `parseFileAssertion(input, line, collector)`. -/
def parseFileAssertion (input : List Char) (line : Nat) (c : Collector) :
    Option AssertionExpression × Collector :=
  let i := skipWhitespace input 4
  match parseStringLiteral input i with
  | none => (none, c.addError ("Expected quoted file path after \"file\"".toList) line)
  | some (path, pathEnd) =>
    let j := skipWhitespace input pathEnd
    if matchWord input j ("exists".toList) then
      (some (.file path .fileExists), c)
    else if matchWord input j ("contains".toList) then
      match parseStringLiteral input (skipWhitespace input (j + 8)) with
      | none => (none, c.addError ("Expected quoted string after \"contains\"".toList) line)
      | some (lit, _) => (some (.file path (.contains lit)), c)
    else if matchWord input j ("matches".toList) then
      match parseRegexLiteral input (skipWhitespace input (j + 7)) with
      | none => (none, c.addError ("Expected regex literal after \"matches\"".toList) line)
      | some (lit, _) => (some (.file path (.matches lit)), c)
    else
      match parseComparisonOperator input j with
      | some (op, endIndex) =>
        if op = .eq ∨ op = .ne then
          match parseStringLiteral input (skipWhitespace input endIndex) with
          | none =>
            (none, c.addError ("Expected quoted string after \"".toList ++
              compOpChars op ++ ("\"".toList)) line)
          | some (lit, _) => (some (.file path (.equals op lit)), c)
        else
          (none, c.addError ("Expected predicate (exists, contains, matches, ==, !=) after file path".toList) line)
      | none =>
        (none, c.addError ("Expected predicate (exists, contains, matches, ==, !=) after file path".toList) line)

/-- The regex `^([a-zA-Z_][a-zA-Z0-9_-]*)\.(.+)` used for named targets:
captured name and the text after the dot.  (JS `.` does not match line
terminators; within one split line only a carriage return can occur.) -/
def matchDotTarget (s : List Char) : Option (List Char × List Char) :=
  match s with
  | [] => none
  | c :: cs =>
    if isIdentStart c then
      let restIdent := cs.takeWhile isRunNameChar
      match cs.drop restIdent.length with
      | '.' :: rest =>
        let visible := rest.takeWhile (fun ch => ch ≠ '\r')
        if visible = [] then none else some (c :: restIdent, visible)
      | _ => none
    else none

/-- Selector dispatch shared by the targeted and untargeted paths of
`parseAssertionExpression` (the source's sequence of `matchWord` checks). -/
def parseSelectorDispatch (input : List Char) (i : Nat)
    (target : Option (List Char)) (line : Nat) (c : Collector) :
    Option AssertionExpression × Collector :=
  if matchWord input i ("stdout.raw".toList) then
    parseOutputAssertion input (i + 10) .stdoutRaw target line c
  else if matchWord input i ("stdout".toList) then
    parseOutputAssertion input (i + 6) .stdout target line c
  else if matchWord input i ("stderr".toList) then
    parseOutputAssertion input (i + 6) .stderr target line c
  else if matchWord input i ("exit_code".toList) then
    parseExitCodeAssertion input (i + 9) target line c
  else if matchWord input i ("duration".toList) then
    parseDurationAssertion input (i + 8) target line c
  else
    (none, c.addError ("Unknown assertion type: ".toList ++ input) line)

/-- `parseAssertionExpression(input, line, collector)`. -/
def parseAssertionExpression (input : List Char) (line : Nat) (c : Collector) :
    Option AssertionExpression × Collector :=
  let i := skipWhitespace input 0
  if matchWord input i ("file".toList) then parseFileAssertion input line c
  else if matchWord input i ("stdout.raw".toList) then
    parseOutputAssertion input (i + 10) .stdoutRaw none line c
  else
    match matchDotTarget input with
    | some (t, rest2) =>
      if t ≠ "stdout".toList ∧ t ≠ "stderr".toList ∧ t ≠ "exit_code".toList ∧
          t ≠ "duration".toList then
        parseSelectorDispatch rest2 0 (some t) line c
      else parseSelectorDispatch input i none line c
    | none => parseSelectorDispatch input i none line c

/-- `parseAssert(content, line, collector)`. -/
def parseAssert (content : List Char) (line : Nat) (c : Collector) :
    Option ASTNode × Collector :=
  let rest := content.drop 7
  match parseAssertionExpression rest line c with
  | (none, c2) => (none, c2)
  | (some expr, c2) => (some (.assert expr line content), c2)

structure ParsedFile where
  filename : List Char
  pragmas : List PragmaNode
  nodes : List ASTNode
  warnings : List ParseWarning
deriving DecidableEq, Repr

inductive ParseResult
  | success (file : ParsedFile)
  | failure (errors : List ParseError) (warnings : List ParseWarning)
deriving DecidableEq, Repr

/-- The mutable state of `parseFile`'s line loop. -/
structure ParserState where
  collector : Collector
  pragmas : List PragmaNode
  nodes : List ASTNode
  runNames : List (List Char)
  inPragmaSection : Bool
deriving DecidableEq, Repr

/-- One iteration of `parseFile`'s `switch` on the classified line. -/
def processLine (st : ParserState) (rawLine : List Char) (lineNumber : Nat) :
    ParserState :=
  let token := classifyLine rawLine lineNumber
  match token.type with
  | .EMPTY => st
  | .COMMENT =>
    { st with nodes := st.nodes ++ [.comment (jsTrim (token.content.drop 1)) lineNumber] }
  | .PRAGMA =>
    if st.inPragmaSection then
      match parsePragma token.content lineNumber st.collector with
      | (some p, c2) =>
        { st with collector := c2, pragmas := st.pragmas ++ [p],
                  nodes := st.nodes ++ [.pragma p] }
      | (none, c2) => { st with collector := c2 }
    else
      { st with collector :=
          st.collector.addError ("Pragmas must appear at the top of the file".toList) lineNumber }
  | .TEST =>
    match parseTest token.content lineNumber st.collector with
    | (some n, c2) =>
      { st with collector := c2, nodes := st.nodes ++ [n], inPragmaSection := false }
    | (none, c2) => { st with collector := c2, inPragmaSection := false }
  | .RUN =>
    match parseRun token.content lineNumber st.collector st.runNames with
    | (some n, c2, rn) =>
      { st with collector := c2, nodes := st.nodes ++ [n], runNames := rn,
                inPragmaSection := false }
    | (none, c2, rn) =>
      { st with collector := c2, runNames := rn, inPragmaSection := false }
  | .ASSERT =>
    match parseAssert token.content lineNumber st.collector with
    | (some n, c2) =>
      { st with collector := c2, nodes := st.nodes ++ [n], inPragmaSection := false }
    | (none, c2) => { st with collector := c2, inPragmaSection := false }
  | .ENV =>
    match parseEnv token.content lineNumber st.collector with
    | (some n, c2) =>
      { st with collector := c2, nodes := st.nodes ++ [n], inPragmaSection := false }
    | (none, c2) => { st with collector := c2, inPragmaSection := false }
  | .UNKNOWN =>
    { st with
      inPragmaSection := false,
      collector := st.collector.addError ("Unknown statement: ".toList ++ token.content) lineNumber }

/-- The line loop of `parseFile`, numbering lines from `n`. -/
def processLines : ParserState → List (List Char) → Nat → ParserState
  | st, [], _ => st
  | st, l :: ls, n => processLines (processLine st l n) ls (n + 1)

/-- Initial parser state for a file. -/
def initState (filename : List Char) : ParserState :=
  { collector := { filename := filename, errors := [], warnings := [] },
    pragmas := [], nodes := [], runNames := [], inPragmaSection := true }

/-- `parseFile(content, filename)`. -/
def parseFile (content : List Char) (filename : List Char) : ParseResult :=
  let lines := splitOnChar '\n' content
  let st := processLines (initState filename) lines 1
  if st.collector.errors = [] then
    .success { filename := filename, pragmas := st.pragmas, nodes := st.nodes,
               warnings := st.collector.warnings }
  else .failure st.collector.errors st.collector.warnings

/-! ## Assertion engine (`src/core/assertions/*.ts`) -/

/-- `RunResult` (`src/core/runner/shell.ts`): durations are integral
millisecond counts from `Date.now()` differences, modelled in `ℚ` like all
engine numbers. -/
structure RunResult where
  runId : List Char
  stdout : List Char
  stdoutRaw : List Char
  stderr : List Char
  exitCode : Int
  durationMs : ℚ
  stderrPath : List Char
deriving DecidableEq, Repr

structure AssertionResult where
  passed : Bool
  expected : List Char
  actual : List Char
  error : Option (List Char)
deriving DecidableEq, Repr

/-- `getOutputValue(result, selector)`. -/
def getOutputValue (result : RunResult) : OutputSelector → List Char
  | .stdout => result.stdout
  | .stdoutRaw => result.stdoutRaw
  | .stderr => result.stderr

/-- The global replacement `replace(/\r\n/g, "\n")` (left-to-right,
non-overlapping). -/
def replaceCrlf : List Char → List Char
  | '\r' :: '\n' :: rest => '\n' :: replaceCrlf rest
  | c :: rest => c :: replaceCrlf rest
  | [] => []

/-- `normalizeWhitespace(str)`: CRLF→LF, per-line trailing-whitespace trim,
then whole-string trim. -/
def normalizeWhitespace (str : List Char) : List Char :=
  jsTrim (List.intercalate ['\n'] ((splitOnChar '\n' (replaceCrlf str)).map jsTrimEnd))

/-- Decimal text of an integer, as JS `String(n)` prints it. -/
def intChars (i : Int) : List Char :=
  if i < 0 then '-' :: Nat.toDigits 10 i.natAbs else Nat.toDigits 10 i.toNat

/-- `evaluateContains` (literal substring search, no regex meaning). -/
def evaluateContains (output : List Char) (value : StringLiteral) : AssertionResult :=
  { passed := containsSeq output value.value,
    expected := "to contain ".toList ++ value.raw,
    actual := output, error := none }

/-- `evaluateMatches`: the regex engine itself is host functionality, taken
as an oracle argument; a left result models the `RegExp` constructor
throwing, surfaced as an `error` field with `passed := false`. -/
def evaluateMatches (regexEval : RegexLiteral → List Char → Except (List Char) Bool)
    (output : List Char) (value : RegexLiteral) : AssertionResult :=
  match regexEval value output with
  | .ok b =>
    { passed := b, expected := "to match ".toList ++ value.raw,
      actual := output, error := none }
  | .error msg =>
    { passed := false, expected := "to match ".toList ++ value.raw,
      actual := output, error := some ("Invalid regex: ".toList ++ msg) }

/-- `evaluateEquals`: normalize both sides, compare, honour the operator. -/
def evaluateEquals (output : List Char) (operator : CompOp) (value : StringLiteral) :
    AssertionResult :=
  let isEqual : Bool := normalizeWhitespace output = normalizeWhitespace value.value
  { passed := if operator = .eq then isEqual else !isEqual,
    expected := compOpChars operator ++ (" ".toList) ++ value.raw,
    actual := output, error := none }

/-- `evaluateOutputPredicate(output, predicate)`. -/
def evaluateOutputPredicate
    (regexEval : RegexLiteral → List Char → Except (List Char) Bool)
    (output : List Char) : OutputPredicate → AssertionResult
  | .contains v => evaluateContains output v
  | .matches v => evaluateMatches regexEval output v
  | .equals op v => evaluateEquals output op v

/-- `evaluateExitCodePredicate(exitCode, predicate)`: plain integer
(in)equality. -/
def evaluateExitCodePredicate (exitCode : Int) (predicate : ExitCodePredicate) :
    AssertionResult :=
  let isEqual : Bool := exitCode = predicate.value
  { passed := if predicate.operator = .eq then isEqual else !isEqual,
    expected := "exit_code ".toList ++ compOpChars predicate.operator ++
      (" ".toList) ++ intChars predicate.value,
    actual := intChars exitCode, error := none }

/-- `durationToMs(duration)`: seconds scale by 1000, milliseconds pass
through. -/
def durationToMs (duration : Duration) : ℚ :=
  match duration.unit with
  | .s => duration.value * 1000
  | .ms => duration.value

/-- Decimal-ish text of a rational; exact for the integral values the
engine produces (display only, never compared by the engine). -/
def ratChars (q : ℚ) : List Char :=
  if q.den = 1 then intChars q.num
  else intChars q.num ++ ('/' :: Nat.toDigits 10 q.den)

/-- `toFixed(2)` on the exact rational value (display only). -/
def toFixed2 (q : ℚ) : List Char :=
  let n : Int := Int.floor (q * 100 + 1 / 2)
  let whole := n / 100
  let frac := (n % 100).natAbs
  intChars whole ++ ('.' ::
    (if frac < 10 then '0' :: Nat.toDigits 10 frac else Nat.toDigits 10 frac))

/-- `formatDuration(ms)`. -/
def formatDuration (ms : ℚ) : List Char :=
  if 1000 ≤ ms then toFixed2 (ms / 1000) ++ ("s".toList)
  else ratChars ms ++ ("ms".toList)

/-- `evaluateComparison(actual, operator, expected)`. -/
def evaluateComparison (actual : ℚ) (operator : CompOp) (expected : ℚ) : Bool :=
  match operator with
  | .eq => actual = expected
  | .ne => actual ≠ expected
  | .lt => actual < expected
  | .le => actual ≤ expected
  | .gt => expected < actual
  | .ge => expected ≤ actual

/-- `evaluateDurationPredicate(durationMs, predicate)`: threshold converted
to milliseconds, then the requested comparison, tolerance-free. -/
def evaluateDurationPredicate (durationMs : ℚ) (predicate : DurationPredicate) :
    AssertionResult :=
  let expectedMs := durationToMs predicate.value
  { passed := evaluateComparison durationMs predicate.operator expectedMs,
    expected := "duration ".toList ++ compOpChars predicate.operator ++
      (" ".toList) ++ predicate.value.raw,
    actual := formatDuration durationMs, error := none }

/-! ## Shell session configuration (`src/core/runner/shell.ts`) -/

/-- `node:path` `basename` (POSIX): drop trailing slashes, keep the last
path segment. -/
def basenameFn (p : List Char) : List Char :=
  let trimmed := (p.reverse.dropWhile (fun c => c = '/')).reverse
  if trimmed = [] then (if p = [] then [] else ['/'])
  else (trimmed.reverse.takeWhile (fun c => c ≠ '/')).reverse

/-- `SHELL_FLAGS`: the fixed allowlist with its rc-disabling flags. -/
def shellFlagsFor (shellName : List Char) : Option (List (List Char)) :=
  if shellName = "bash".toList then some ["--norc".toList, "--noprofile".toList]
  else if shellName = "zsh".toList then some ["--no-rcs".toList]
  else if shellName = "sh".toList then some []
  else none

/-- `getShellFlags(shellPath)`: `SHELL_FLAGS[basename] ?? []`. -/
def getShellFlags (shellPath : List Char) : List (List Char) :=
  (shellFlagsFor (basenameFn shellPath)).getD []

/-- `isShellSupported(shellPath)`. -/
def isShellSupported (shellPath : List Char) : Bool :=
  (shellFlagsFor (basenameFn shellPath)).isSome

structure ShellConfig where
  shell : List Char
  env : List (List Char × List Char)
  timeout : ℚ
  cwd : List Char
  filename : List Char
deriving DecidableEq, Repr

/-- The argv `ShellSession.start` spawns: `[config.shell, ...shellFlags]`.
`start()` contains no shell-validation branch — it computes the flags
(empty for unknown shells) and proceeds to spawn for every configured
shell; its only failure paths are I/O (spawn, readiness timeout). -/
def startSpawnArgv (config : ShellConfig) : List (List Char) :=
  config.shell :: getShellFlags config.shell

/-- The host process environment values read by `createShellConfig`
(`process.env.SHELL / PATH / HOME`). -/
structure ProcessEnv where
  shellVar : Option (List Char)
  pathVar : Option (List Char)
  homeVar : Option (List Char)
deriving DecidableEq, Repr

/-- JS object property assignment on a string-keyed record. -/
def envSet : List (List Char × List Char) → List Char → List Char →
    List (List Char × List Char)
  | [], k, v => [(k, v)]
  | (k0, v0) :: rest, k, v =>
    if k0 = k then (k0, v) :: rest else (k0, v0) :: envSet rest k v

/-- JS falsiness of an optional string (`undefined` or `""`). -/
def jsFalsyStr : Option (List Char) → Bool
  | none => true
  | some s => s.isEmpty

/-- The anchored regex `^(\d+(?:\.\d+)?)(ms|s)$` of the timeout pragma,
returning the value already converted to milliseconds. -/
def timeoutValueMs (value : List Char) : Option ℚ :=
  let ds := value.takeWhile isDigitChar
  if ds = [] then none
  else
    let rest := value.drop ds.length
    let numAndTail : Option (ℚ × List Char) :=
      match rest with
      | '.' :: r =>
        let fs := r.takeWhile isDigitChar
        if fs = [] then none
        else some ((digitsToNat ds : ℚ) +
          (digitsToNat fs : ℚ) / ((10 : ℚ) ^ fs.length), r.drop fs.length)
      | _ => some ((digitsToNat ds : ℚ), rest)
    match numAndTail with
    | none => none
    | some (v, tail) =>
      if tail = "ms".toList then some v
      else if tail = "s".toList then some (v * 1000)
      else none

/-- The loop body of `createShellConfig` over pragmas (accumulator: shell,
env map, timeout). -/
def shellConfigStep (overrideShell : Option (List Char))
    (acc : List Char × List (List Char × List Char) × ℚ) (p : PragmaNode) :
    List Char × List (List Char × List Char) × ℚ :=
  match p.pragmaType with
  | .shell => if jsFalsyStr overrideShell then (p.value, acc.2.1, acc.2.2) else acc
  | .env =>
    match p.key with
    | some k => if k.isEmpty then acc else (acc.1, envSet acc.2.1 k p.value, acc.2.2)
    | none => acc
  | .timeout =>
    match timeoutValueMs p.value with
    | some t => (acc.1, acc.2.1, t)
    | none => acc
  | .unknown => acc

/-- `createShellConfig(pragmas, filename, cwd, overrideShell)`: CLI
override, else `$SHELL`, else `/bin/bash`; minimal PATH/HOME base
environment overlaid with `env:` pragmas; 30s default timeout. -/
def createShellConfig (pragmas : List PragmaNode) (filename cwd : List Char)
    (overrideShell : Option (List Char)) (penv : ProcessEnv) : ShellConfig :=
  let shell0 :=
    match overrideShell with
    | some s => s
    | none => penv.shellVar.getD ("/bin/bash".toList)
  let env0 := [(("PATH".toList), penv.pathVar.getD ("/usr/bin:/bin".toList)),
               (("HOME".toList), penv.homeVar.getD ("/".toList))]
  let folded := pragmas.foldl (shellConfigStep overrideShell) (shell0, env0, (30000 : ℚ))
  { shell := folded.1, env := folded.2.1, timeout := folded.2.2,
    cwd := cwd, filename := filename }

/-- Value of the last `shell:` pragma in a list, if any. -/
def lastShellPragmaValue : List PragmaNode → Option (List Char)
  | [] => none
  | p :: rest =>
    match lastShellPragmaValue rest with
    | some v => some v
    | none => if p.pragmaType = PragmaType.shell then some p.value else none

/-! ## Executor (`src/core/runner/index.ts`) -/

structure TestFailure where
  filename : List Char
  line : Nat
  testName : Option (List Char)
  runCommand : Option (List Char)
  assertion : Option (List Char)
  expected : Option (List Char)
  actual : Option (List Char)
  error : Option (List Char)
deriving DecidableEq, Repr

/-- The session and host effects `executeNodes` depends on, as oracles:
`exec i name cmd` is `session.run` for the `i`-th RUN (an `error` models
the call throwing, e.g. a sentinel timeout), `regexEval` the host regex
engine, `fileEval` the filesystem-backed file-assertion evaluator
(`evaluateFilePredicate` against the session's queried cwd). -/
structure ExecEnv where
  exec : Nat → Option (List Char) → List Char → Except (List Char) RunResult
  regexEval : RegexLiteral → List Char → Except (List Char) Bool
  fileEval : StringLiteral → FilePredicate → AssertionResult

/-- The executor's mutable per-file state. -/
structure ExecState where
  currentTestName : Option (List Char)
  lastRunResult : Option RunResult
  runResults : List (List Char × RunResult)
  assertionsPassed : Nat
  pendingEnvVars : List (List Char × List Char)
  runIndex : Nat

/-- `runResults.get(name)` (later insertions shadow earlier ones). -/
def lookupRun : List (List Char × RunResult) → List Char → Option RunResult
  | [], _ => none
  | (k, r) :: rest, name => if k = name then some r else lookupRun rest name

/-- Target resolution of `evaluateAssertion`: a named RUN lookup or the
last result, with the exact early-return failure results of the source. -/
def resolveTargetResult (target : Option (List Char))
    (lastRunResult : Option RunResult)
    (runResults : List (List Char × RunResult)) : Sum AssertionResult RunResult :=
  match target with
  | some t =>
    match lookupRun runResults t with
    | some r => .inr r
    | none =>
      .inl { passed := false,
             expected := "RUN named \"".toList ++ t ++ ("\" to exist".toList),
             actual := "RUN not found".toList,
             error := some ("No RUN named \"".toList ++ t ++ ("\" found".toList)) }
  | none =>
    match lastRunResult with
    | some r => .inr r
    | none =>
      .inl { passed := false,
             expected := "a previous RUN command".toList,
             actual := "no RUN command executed".toList,
             error := some ("ASSERT without a preceding RUN".toList) }

/-- `evaluateAssertion(node, lastRunResult, runResults, session, cwd)`. -/
def evaluateAssertion (env : ExecEnv) (expr : AssertionExpression)
    (lastRunResult : Option RunResult)
    (runResults : List (List Char × RunResult)) : AssertionResult :=
  match expr with
  | .file path predicate => env.fileEval path predicate
  | .output target selector predicate =>
    match resolveTargetResult target lastRunResult runResults with
    | .inl failed => failed
    | .inr tr => evaluateOutputPredicate env.regexEval (getOutputValue tr selector) predicate
  | .exitCode target predicate =>
    match resolveTargetResult target lastRunResult runResults with
    | .inl failed => failed
    | .inr tr => evaluateExitCodePredicate tr.exitCode predicate
  | .duration target predicate =>
    match resolveTargetResult target lastRunResult runResults with
    | .inl failed => failed
    | .inr tr => evaluateDurationPredicate tr.durationMs predicate

structure ExecuteResult where
  assertionsPassed : Nat
  failure : Option TestFailure
deriving DecidableEq, Repr

/-- `executeNodes(nodes, session, filename, reporter, cwd)`: walk the AST in
order; TEST switches the current test (the session-side env unset is an
effect), ENV buffers, RUN flushes buffered env vars and executes (an
exception aborts the file with a run failure — a mere non-zero exit code
does not), ASSERT evaluates and on a mismatch aborts the file with full
context. -/
def executeNodes (env : ExecEnv) (filename : List Char) :
    List ASTNode → ExecState → ExecuteResult
  | [], st => { assertionsPassed := st.assertionsPassed, failure := none }
  | node :: rest, st =>
    match node with
    | .pragma _ => executeNodes env filename rest st
    | .comment _ _ => executeNodes env filename rest st
    | .test name _ =>
      executeNodes env filename rest { st with currentTestName := some name }
    | .env key value _ =>
      executeNodes env filename rest
        { st with pendingEnvVars := st.pendingEnvVars ++ [(key, value)] }
    | .run name command line =>
      match env.exec (st.runIndex + 1) name command with
      | .ok result =>
        executeNodes env filename rest
          { st with
            pendingEnvVars := [],
            runIndex := st.runIndex + 1,
            lastRunResult := some result,
            runResults :=
              (match name with
               | some nm => (nm, result) :: st.runResults
               | none => st.runResults) }
      | .error msg =>
        { assertionsPassed := st.assertionsPassed,
          failure := some
            { filename := filename, line := line,
              testName := st.currentTestName, runCommand := some command,
              assertion := none, expected := none, actual := none,
              error := some msg } }
    | .assert expr line raw =>
      let result := evaluateAssertion env expr st.lastRunResult st.runResults
      if result.passed then
        executeNodes env filename rest
          { st with assertionsPassed := st.assertionsPassed + 1 }
      else
        { assertionsPassed := st.assertionsPassed,
          failure := some
            { filename := filename, line := line,
              testName := st.currentTestName,
              runCommand := st.lastRunResult.map (fun r => r.runId),
              assertion := some raw, expected := some result.expected,
              actual := some result.actual, error := result.error } }

/-- The fresh executor state a file starts with. -/
def initExecState : ExecState :=
  { currentTestName := none, lastRunResult := none, runResults := [],
    assertionsPassed := 0, pendingEnvVars := [], runIndex := 0 }

/-- Double-quote escape encoder: maps each character to the escape sequence
that `parseStringLiteral` interprets back to it (`\n \t \" \\`; all other
characters stand for themselves). -/
def escDQ : List Char → List Char
  | [] => []
  | c :: cs =>
    (if c = '\\' then ['\\', '\\']
     else if c = '"' then ['\\', '"']
     else if c = '\n' then ['\\', 'n']
     else if c = '\t' then ['\\', 't']
     else [c]) ++ escDQ cs

/-- Whether `parseFile` reports success. -/
def parseSucceeds (content filename : List Char) : Bool :=
  match parseFile content filename with
  | .success _ => true
  | .failure _ _ => false

/-- The full list of errors collected while parsing a file. -/
def parseFileErrors (content filename : List Char) : List ParseError :=
  (processLines (initState filename) (splitOnChar '\n' content) 1).collector.errors

/-- A copy of a collector with no errors or warnings yet. -/
def creset (c : Collector) : Collector :=
  { filename := c.filename, errors := [], warnings := [] }

/-- Concatenation of two collectors' contents (first one's filename). -/
def cmerge (c d : Collector) : Collector :=
  { filename := c.filename, errors := c.errors ++ d.errors,
    warnings := c.warnings ++ d.warnings }

/-- A parser state whose collector is emptied. -/
def resetCollector (st : ParserState) : ParserState :=
  { st with collector := creset st.collector }

example :
    extractSentinel ("hi\n__HONE__\x1fid-1\x1f0\x1f17\nrest".toList) ("id-1".toList) =
      { found := true, output := "hi".toList,
        sentinel := some { runId := "id-1".toList, exitCode := 0, endTimestampMs := 17 },
        remaining := "rest".toList } := by decide

example :
    (extractSentinel ("hi\n__HONE__\x1fid-2\x1f0\x1f17\nrest".toList) ("id-1".toList)).found =
      false := by decide

example :
    (extractSentinel ("hi\n__HONE__\x1fid-1\x1f0\x1f17".toList) ("id-1".toList)).found =
      false := by decide

example : parseSentinel ("__HONE__\x1fa\x1f3x\x1f9".toList) =
    some { runId := "a".toList, exitCode := 3, endTimestampMs := 9 } := by decide

example : parseSentinel ("__HONE__\x1fa\x1fq\x1f9".toList) = none := by decide

example : parseSucceeds ("#! shell: /bin/zsh".toList) ("t.hone".toList) = true := by
  decide

example :
    parseFile ("RUN echo test\n#! shell: /bin/zsh".toList) ("t.hone".toList) =
      ParseResult.failure
        [{ message := "Pragmas must appear at the top of the file".toList, line := 2,
           filename := "t.hone".toList }] [] := by decide

example : parseSucceeds ("TEST \"test-name_123 with spaces\"".toList) ("t.hone".toList) =
    true := by decide

example : parseSucceeds ("TEST \"test@name\"".toList) ("t.hone".toList) = false := by
  decide

example :
    parseFile ("RUN build: npm run build".toList) ("t.hone".toList) =
      ParseResult.success
        { filename := "t.hone".toList, pragmas := [],
          nodes := [.run (some ("build".toList)) ("npm run build".toList) 1],
          warnings := [] } := by decide

example :
    parseFile ("ASSERT stdout contains \"hello\\nworld\"".toList) ("t.hone".toList) =
      ParseResult.success
        { filename := "t.hone".toList, pragmas := [],
          nodes := [.assert
            (.output none .stdout (.contains
              { value := "hello\nworld".toList,
                raw := "\"hello\\nworld\"".toList, quoteType := .double }))
            1 ("ASSERT stdout contains \"hello\\nworld\"".toList)],
          warnings := [] } := by decide

example :
    parseFile ("ASSERT stdout contains 'hello\\nworld'".toList) ("t.hone".toList) =
      ParseResult.success
        { filename := "t.hone".toList, pragmas := [],
          nodes := [.assert
            (.output none .stdout (.contains
              { value := "hello\\nworld".toList,
                raw := "'hello\\nworld'".toList, quoteType := .single }))
            1 ("ASSERT stdout contains 'hello\\nworld'".toList)],
          warnings := [] } := by decide

example :
    parseFile ("ASSERT build.stdout contains \"success\"".toList) ("t.hone".toList) =
      ParseResult.success
        { filename := "t.hone".toList, pragmas := [],
          nodes := [.assert
            (.output (some ("build".toList)) .stdout (.contains
              { value := "success".toList, raw := "\"success\"".toList,
                quoteType := .double }))
            1 ("ASSERT build.stdout contains \"success\"".toList)],
          warnings := [] } := by decide

example :
    parseFile ("ASSERT exit_code == 0".toList) ("t.hone".toList) =
      ParseResult.success
        { filename := "t.hone".toList, pragmas := [],
          nodes := [.assert (.exitCode none { operator := .eq, value := 0 }) 1
            ("ASSERT exit_code == 0".toList)],
          warnings := [] } := by decide

example : parseSucceeds ("ASSERT duration <= 1.5s".toList) ("t.hone".toList) = true := by
  decide

example : parseSucceeds ("ASSERT duration <= 1.5q".toList) ("t.hone".toList) = false := by
  decide

example :
    parseFile ("ASSERT file \"out.txt\" exists".toList) ("t.hone".toList) =
      ParseResult.success
        { filename := "t.hone".toList, pragmas := [],
          nodes := [.assert
            (.file { value := "out.txt".toList, raw := "\"out.txt\"".toList,
                     quoteType := .double } .fileExists) 1
            ("ASSERT file \"out.txt\" exists".toList)],
          warnings := [] } := by decide

example : parseSucceeds ("ASSERT stderr matches /error/i".toList) ("t.hone".toList) =
    true := by decide

example : parseSucceeds ("ASSERT stdout.raw contains \"x\"".toList) ("t.hone".toList) =
    true := by decide

/-- C1: `extractSentinel(buffer, expectedRunId)` reports not-found when the
buffer contains no sentinel prefix, when a prefix is present but no
terminating newline follows it, or when the (well-formed) sentinel line's
embedded runId differs from `expectedRunId`; and whenever it reports found,
a complete well-formed sentinel line with the matching runId is present and
it returns the output preceding the sentinel with one trailing newline
trimmed, the parsed `SentinelData`, and the buffer remainder after the
sentinel line. -/
theorem extractSentinel_characterization (buffer rid : List Char) :
    (firstIndexOfSeq sentinelMark buffer = none →
      (extractSentinel buffer rid).found = false) ∧
    (∀ i, firstIndexOfSeq sentinelMark buffer = some i →
      firstIndexOfChar '\n' (buffer.drop i) = none →
      (extractSentinel buffer rid).found = false) ∧
    (∀ i j p, firstIndexOfSeq sentinelMark buffer = some i →
      firstIndexOfChar '\n' (buffer.drop i) = some j →
      parseSentinel (jsTrim ((buffer.drop i).take j)) = some p →
      p.runId ≠ rid →
      (extractSentinel buffer rid).found = false) ∧
    ((extractSentinel buffer rid).found = true →
      ∃ i j p, firstIndexOfSeq sentinelMark buffer = some i ∧
        firstIndexOfChar '\n' (buffer.drop i) = some j ∧
        parseSentinel (jsTrim ((buffer.drop i).take j)) = some p ∧
        p.runId = rid ∧
        (extractSentinel buffer rid).output =
          (if (buffer.take i).getLast? = some '\n' then (buffer.take i).dropLast
           else buffer.take i) ∧
        (extractSentinel buffer rid).sentinel = some p ∧
        (extractSentinel buffer rid).remaining = (buffer.drop i).drop (j + 1)) := by
  refine ⟨fun h => ?_, fun i hi hn => ?_, fun i j p hi hn hp hne => ?_, fun h => ?_⟩
  · simp [extractSentinel, h]
  · simp [extractSentinel, hi, hn]
  · simp [extractSentinel, hi, hn, hp, hne]
  · rcases h1 : firstIndexOfSeq sentinelMark buffer with _ | i
    · simp [extractSentinel, h1] at h
    rcases h2 : firstIndexOfChar '\n' (buffer.drop i) with _ | j
    · simp [extractSentinel, h1, h2] at h
    rcases h3 : parseSentinel (jsTrim ((buffer.drop i).take j)) with _ | p
    · simp [extractSentinel, h1, h2, h3] at h
    by_cases h4 : p.runId = rid
    · exact ⟨i, j, p, rfl, h2, h3, h4, by simp [extractSentinel, h1, h2, h3, h4]⟩
    · simp [extractSentinel, h1, h2, h3, h4] at h

/-- Witness for C1: concrete instantiations of the not-found cases
(runId mismatch, and missing terminating newline). -/
theorem extractSentinel_characterization_witness :
    (extractSentinel ("x\n__HONE__\x1fother\x1f0\x1f1\n".toList) ("id".toList)).found
        = false ∧
    (extractSentinel ("x\n__HONE__\x1fid\x1f0\x1f1".toList) ("id".toList)).found
        = false :=
  ⟨(extractSentinel_characterization ("x\n__HONE__\x1fother\x1f0\x1f1\n".toList)
      ("id".toList)).2.2.1 2 18
      { runId := "other".toList, exitCode := 0, endTimestampMs := 1 }
      (by decide) (by decide) (by decide) (by decide),
   (extractSentinel_characterization ("x\n__HONE__\x1fid\x1f0\x1f1".toList)
      ("id".toList)).2.1 2 (by decide) (by decide)⟩

/-- C6: `parseSentinel(line)` returns `some` only if the line starts with
the literal `__HONE__` prefix, splits into exactly 4 unit-separator fields,
and both numeric fields parse (non-`NaN`) under `parseInt`; in every other
case it returns `none`. -/
theorem parseSentinel_characterization :
    (∀ line d, parseSentinel line = some d →
      sentinelMark.isPrefixOf line = true ∧
      (splitOnChar unitSeparator line).length = 4 ∧
      ∃ f0 f1 f2 f3, splitOnChar unitSeparator line = [f0, f1, f2, f3] ∧
        d.runId = f1 ∧ jsParseInt f2 = some d.exitCode ∧
        jsParseInt f3 = some d.endTimestampMs) ∧
    (∀ line,
      ¬ (sentinelMark.isPrefixOf line = true ∧
         (splitOnChar unitSeparator line).length = 4 ∧
         ∃ f0 f1 f2 f3, splitOnChar unitSeparator line = [f0, f1, f2, f3] ∧
           (jsParseInt f2).isSome = true ∧ (jsParseInt f3).isSome = true) →
      parseSentinel line = none) := by
  constructor
  · intro line d h
    unfold parseSentinel at h
    split at h
    case isFalse => exact absurd h (by simp)
    case isTrue hpre =>
      split at h
      case h_2 => exact absurd h (by simp)
      case h_1 g0 g1 g2 g3 hsplit =>
        split at h
        case isTrue => exact absurd h (by simp)
        case isFalse hne =>
          split at h
          case h_2 => exact absurd h (by simp)
          case h_1 ec ts hec hts =>
            cases h
            exact ⟨hpre, by simp [hsplit], g0, g1, g2, g3, hsplit, rfl, hec, hts⟩
  · intro line hcond
    rcases h : parseSentinel line with _ | d
    · rfl
    exfalso
    apply hcond
    unfold parseSentinel at h
    split at h
    case isFalse => exact absurd h (by simp)
    case isTrue hpre =>
      split at h
      case h_2 => exact absurd h (by simp)
      case h_1 g0 g1 g2 g3 hsplit =>
        split at h
        case isTrue => exact absurd h (by simp)
        case isFalse hne =>
          split at h
          case h_2 => exact absurd h (by simp)
          case h_1 ec ts hec hts =>
            exact ⟨hpre, by simp [hsplit], g0, g1, g2, g3, hsplit,
              by rw [hec]; rfl, by rw [hts]; rfl⟩

/-- Witness for C6: the characterization applied to a concrete well-formed
sentinel line. -/
theorem parseSentinel_characterization_witness :
    sentinelMark.isPrefixOf ("__HONE__\x1fa\x1f3\x1f9".toList) = true ∧
    (splitOnChar unitSeparator ("__HONE__\x1fa\x1f3\x1f9".toList)).length = 4 ∧
    ∃ f0 f1 f2 f3,
      splitOnChar unitSeparator ("__HONE__\x1fa\x1f3\x1f9".toList) = [f0, f1, f2, f3] ∧
      (SentinelData.mk ("a".toList) 3 9).runId = f1 ∧
      jsParseInt f2 = some (SentinelData.mk ("a".toList) 3 9).exitCode ∧
      jsParseInt f3 = some (SentinelData.mk ("a".toList) 3 9).endTimestampMs :=
  parseSentinel_characterization.1 ("__HONE__\x1fa\x1f3\x1f9".toList)
    (SentinelData.mk ("a".toList) 3 9) (by decide)

/-- C10: whenever `extractSentinel` reports not-found it returns the whole
input buffer unchanged as output and an empty remainder, consuming nothing. -/
theorem extractSentinel_not_found_preserves_buffer (buffer rid : List Char)
    (h : (extractSentinel buffer rid).found = false) :
    (extractSentinel buffer rid).output = buffer ∧
    (extractSentinel buffer rid).remaining = [] := by
  rcases h1 : firstIndexOfSeq sentinelMark buffer with _ | i
  · simp [extractSentinel, h1]
  rcases h2 : firstIndexOfChar '\n' (buffer.drop i) with _ | j
  · simp [extractSentinel, h1, h2]
  rcases h3 : parseSentinel (jsTrim ((buffer.drop i).take j)) with _ | p
  · simp [extractSentinel, h1, h2, h3]
  by_cases h4 : p.runId = rid
  · exfalso
    rw [extractSentinel] at h
    simp [h1, h2, h3, h4] at h
  · simp [extractSentinel, h1, h2, h3, h4]

/-- `parsePragma` threads the collector: its output collector is the input
collector with the newly produced errors and warnings appended. -/
theorem parsePragma_reset (content : List Char) (line : Nat) (c : Collector) :
    parsePragma content line c =
      ((parsePragma content line (creset c)).1,
        cmerge c (parsePragma content line (creset c)).2) := by
  cases c
  unfold parsePragma
  try dsimp only
  repeat' split
  all_goals simp only [creset, cmerge, Collector.addError, Collector.addWarning,
    List.nil_append, List.append_nil]

/-- `parseTest` threads the collector additively. -/
theorem parseTest_reset (content : List Char) (line : Nat) (c : Collector) :
    parseTest content line c =
      ((parseTest content line (creset c)).1,
        cmerge c (parseTest content line (creset c)).2) := by
  cases c
  unfold parseTest
  try dsimp only
  repeat' split
  all_goals simp only [creset, cmerge, Collector.addError, Collector.addWarning,
    List.nil_append, List.append_nil]

/-- `parseRun` threads the collector additively and its run-name set and
produced node do not depend on previously collected errors. -/
theorem parseRun_reset (content : List Char) (line : Nat) (c : Collector)
    (runNames : List (List Char)) :
    parseRun content line c runNames =
      ((parseRun content line (creset c) runNames).1,
        cmerge c (parseRun content line (creset c) runNames).2.1,
        (parseRun content line (creset c) runNames).2.2) := by
  cases c
  unfold parseRun
  try dsimp only
  repeat' split
  all_goals simp only [creset, cmerge, Collector.addError, Collector.addWarning,
    List.nil_append, List.append_nil]

/-- `parseEnv` threads the collector additively. -/
theorem parseEnv_reset (content : List Char) (line : Nat) (c : Collector) :
    parseEnv content line c =
      ((parseEnv content line (creset c)).1,
        cmerge c (parseEnv content line (creset c)).2) := by
  cases c
  unfold parseEnv
  try dsimp only
  repeat' split
  all_goals simp only [creset, cmerge, Collector.addError, Collector.addWarning,
    List.nil_append, List.append_nil]

/-- `parseOutputAssertion` threads the collector additively. -/
theorem parseOutputAssertion_reset (input : List Char) (startIndex : Nat)
    (selector : OutputSelector) (target : Option (List Char)) (line : Nat)
    (c : Collector) :
    parseOutputAssertion input startIndex selector target line c =
      ((parseOutputAssertion input startIndex selector target line (creset c)).1,
        cmerge c (parseOutputAssertion input startIndex selector target line (creset c)).2) := by
  cases c
  unfold parseOutputAssertion
  try dsimp only
  repeat' split
  all_goals simp only [creset, cmerge, Collector.addError, Collector.addWarning,
    List.nil_append, List.append_nil]

/-- `parseExitCodeAssertion` threads the collector additively. -/
theorem parseExitCodeAssertion_reset (input : List Char) (startIndex : Nat)
    (target : Option (List Char)) (line : Nat) (c : Collector) :
    parseExitCodeAssertion input startIndex target line c =
      ((parseExitCodeAssertion input startIndex target line (creset c)).1,
        cmerge c (parseExitCodeAssertion input startIndex target line (creset c)).2) := by
  cases c
  unfold parseExitCodeAssertion
  try dsimp only
  repeat' split
  all_goals simp only [creset, cmerge, Collector.addError, Collector.addWarning,
    List.nil_append, List.append_nil]

/-- `parseDurationAssertion` threads the collector additively. -/
theorem parseDurationAssertion_reset (input : List Char) (startIndex : Nat)
    (target : Option (List Char)) (line : Nat) (c : Collector) :
    parseDurationAssertion input startIndex target line c =
      ((parseDurationAssertion input startIndex target line (creset c)).1,
        cmerge c (parseDurationAssertion input startIndex target line (creset c)).2) := by
  cases c
  unfold parseDurationAssertion
  try dsimp only
  repeat' split
  all_goals simp only [creset, cmerge, Collector.addError, Collector.addWarning,
    List.nil_append, List.append_nil]

/-- `parseFileAssertion` threads the collector additively. -/
theorem parseFileAssertion_reset (input : List Char) (line : Nat) (c : Collector) :
    parseFileAssertion input line c =
      ((parseFileAssertion input line (creset c)).1,
        cmerge c (parseFileAssertion input line (creset c)).2) := by
  cases c
  unfold parseFileAssertion
  try dsimp only
  repeat' split
  all_goals simp only [creset, cmerge, Collector.addError, Collector.addWarning,
    List.nil_append, List.append_nil]

/-- `parseSelectorDispatch` threads the collector additively. -/
theorem parseSelectorDispatch_reset (input : List Char) (i : Nat)
    (target : Option (List Char)) (line : Nat) (c : Collector) :
    parseSelectorDispatch input i target line c =
      ((parseSelectorDispatch input i target line (creset c)).1,
        cmerge c (parseSelectorDispatch input i target line (creset c)).2) := by
  unfold parseSelectorDispatch
  repeat' split
  all_goals first
    | exact parseOutputAssertion_reset _ _ _ _ _ _
    | exact parseExitCodeAssertion_reset _ _ _ _ _
    | exact parseDurationAssertion_reset _ _ _ _ _
    | (cases c
       simp only [creset, cmerge, Collector.addError, List.nil_append, List.append_nil])

/-- `parseAssertionExpression` threads the collector additively. -/
theorem parseAssertionExpression_reset (input : List Char) (line : Nat)
    (c : Collector) :
    parseAssertionExpression input line c =
      ((parseAssertionExpression input line (creset c)).1,
        cmerge c (parseAssertionExpression input line (creset c)).2) := by
  unfold parseAssertionExpression
  try dsimp only
  repeat' split
  all_goals first
    | exact parseFileAssertion_reset _ _ _
    | exact parseOutputAssertion_reset _ _ _ _ _ _
    | exact parseSelectorDispatch_reset _ _ _ _ _

/-- `parseAssert` threads the collector additively. -/
theorem parseAssert_reset (content : List Char) (line : Nat) (c : Collector) :
    parseAssert content line c =
      ((parseAssert content line (creset c)).1,
        cmerge c (parseAssert content line (creset c)).2) := by
  unfold parseAssert
  dsimp only
  rw [parseAssertionExpression_reset (content.drop 7) line c]
  rcases hX : parseAssertionExpression (content.drop 7) line (creset c) with ⟨onode, c2⟩
  cases onode <;> rfl

/-- C8: duration evaluation converts the threshold to milliseconds
(seconds scale by exactly 1000, milliseconds pass through), applies the
requested comparison operator with no tolerance, and consequently the
literals `1500ms` and `1.5s` accept exactly the same measured durations
under every operator. -/
theorem duration_unit_consistency :
    (∀ (v : ℚ) (raw : List Char),
      durationToMs { value := v, unit := .s, raw := raw } = v * 1000 ∧
      durationToMs { value := v, unit := .ms, raw := raw } = v) ∧
    (∀ (d : ℚ) (pred : DurationPredicate),
      (evaluateDurationPredicate d pred).passed =
        evaluateComparison d pred.operator (durationToMs pred.value)) ∧
    (∀ (d : ℚ) (op : CompOp) (rawA rawB : List Char),
      (evaluateDurationPredicate d
        { operator := op, value := { value := 1500, unit := .ms, raw := rawA } }).passed =
      (evaluateDurationPredicate d
        { operator := op, value := { value := (3 : ℚ) / 2, unit := .s, raw := rawB } }).passed) := by
  refine ⟨fun v raw => ⟨rfl, rfl⟩, fun d pred => rfl, fun d op rawA rawB => ?_⟩
  have h : ((3 : ℚ) / 2) * 1000 = 1500 := by norm_num
  simp [evaluateDurationPredicate, durationToMs, h]

/-- C2 (code-bug evidence): `isShellSupported` classifies `fish` as
unsupported, yet the spawn computation of `ShellSession.start` — which has
no validation branch — proceeds for it, with no flags, instead of failing
fast. -/
theorem start_spawns_unsupported_shell :
    isShellSupported ("/usr/bin/fish".toList) = false ∧
    startSpawnArgv { shell := "/usr/bin/fish".toList, env := [],
                     timeout := 30000, cwd := "/".toList,
                     filename := "t.hone".toList } =
      [("/usr/bin/fish".toList)] := by
  exact ⟨by decide, by decide⟩

/-- The shell component of the pragma fold never changes when the override
is not falsy. -/
theorem foldl_shellConfigStep_keep (o : Option (List Char))
    (h : jsFalsyStr o = false) (pragmas : List PragmaNode) :
    ∀ acc, (pragmas.foldl (shellConfigStep o) acc).1 = acc.1 := by
  induction pragmas with
  | nil => intro acc; rfl
  | cons p rest ih =>
    intro acc
    rw [List.foldl_cons, ih]
    unfold shellConfigStep
    cases hp : p.pragmaType
    case shell => simp [h]
    case env =>
      rcases p.key with _ | k
      · rfl
      · by_cases hk : k.isEmpty <;> simp [hk]
    case timeout =>
      rcases h2 : timeoutValueMs p.value with _ | t <;> simp [h2]
    case unknown => rfl

/-- With no (or a falsy) override, the shell component of the pragma fold
is the last `shell:` pragma's value, if any. -/
theorem foldl_shellConfigStep_none (pragmas : List PragmaNode) :
    ∀ acc, (pragmas.foldl (shellConfigStep none) acc).1 =
      (lastShellPragmaValue pragmas).getD acc.1 := by
  induction pragmas with
  | nil => intro acc; rfl
  | cons p rest ih =>
    intro acc
    rw [List.foldl_cons, ih]
    have hstep : (shellConfigStep none acc p).1 =
        (if p.pragmaType = PragmaType.shell then p.value else acc.1) := by
      unfold shellConfigStep
      cases hp : p.pragmaType
      case shell => simp [jsFalsyStr, hp]
      case env =>
        rcases p.key with _ | k
        · simp [hp]
        · by_cases hk : k.isEmpty <;> simp [hk, hp]
      case timeout =>
        rcases h2 : timeoutValueMs p.value with _ | t <;> simp [h2, hp]
      case unknown => simp [hp]
    rw [hstep]
    rcases hl : lastShellPragmaValue rest with _ | v
    · simp only [lastShellPragmaValue, hl]
      by_cases hp : p.pragmaType = PragmaType.shell <;> simp [hp]
    · simp only [lastShellPragmaValue, hl]
      simp

/-- C9: with a (non-empty) CLI shell override present, `createShellConfig`
uses the override and every `shell:` pragma is ignored; with no override,
the shell is the last `shell:` pragma's value. -/
theorem createShellConfig_override_precedence :
    (∀ pragmas filename cwd s penv, s ≠ [] →
      (createShellConfig pragmas filename cwd (some s) penv).shell = s) ∧
    (∀ pragmas filename cwd penv v,
      lastShellPragmaValue pragmas = some v →
      (createShellConfig pragmas filename cwd none penv).shell = v) := by
  constructor
  · intro pragmas filename cwd s penv hs
    have hfal : jsFalsyStr (some s) = false := by
      cases s
      · exact absurd rfl hs
      · rfl
    unfold createShellConfig
    dsimp only
    rw [foldl_shellConfigStep_keep (some s) hfal pragmas]
  · intro pragmas filename cwd penv v hv
    unfold createShellConfig
    dsimp only
    rw [foldl_shellConfigStep_none pragmas]
    simp [hv]

/-- Witness for C9: both directions at concrete pragma lists. -/
theorem createShellConfig_override_precedence_witness :
    (createShellConfig
      [{ pragmaType := .shell, key := none, value := "/bin/zsh".toList, line := 1,
         raw := "#! shell: /bin/zsh".toList }]
      ("t.hone".toList) ("/".toList) (some ("/bin/bash".toList))
      { shellVar := none, pathVar := none, homeVar := none }).shell =
        "/bin/bash".toList ∧
    (createShellConfig
      [{ pragmaType := .shell, key := none, value := "/bin/zsh".toList, line := 1,
         raw := "#! shell: /bin/zsh".toList }]
      ("t.hone".toList) ("/".toList) none
      { shellVar := none, pathVar := none, homeVar := none }).shell =
        "/bin/zsh".toList :=
  ⟨createShellConfig_override_precedence.1
      [{ pragmaType := .shell, key := none, value := "/bin/zsh".toList, line := 1,
         raw := "#! shell: /bin/zsh".toList }]
      ("t.hone".toList) ("/".toList) ("/bin/bash".toList)
      { shellVar := none, pathVar := none, homeVar := none } (by decide),
   createShellConfig_override_precedence.2
      [{ pragmaType := .shell, key := none, value := "/bin/zsh".toList, line := 1,
         raw := "#! shell: /bin/zsh".toList }]
      ("t.hone".toList) ("/".toList)
      { shellVar := none, pathVar := none, homeVar := none }
      ("/bin/zsh".toList) (by decide)⟩

/-- C3: when every RUN command completes (returns a result — any exit
code), a RUN node alone never produces a failure: any failure carries an
assertion's text, i.e. only an ASSERT can fail the file; concretely a
failing command followed by `ASSERT exit_code != 0` passes with one
assertion counted. -/
theorem run_nonzero_exit_not_failure :
    (∀ (env : ExecEnv) (filename : List Char) (nodes : List ASTNode),
      ∀ (st : ExecState),
      (∀ i nm cmd, ∃ r, env.exec i nm cmd = .ok r) →
      ∀ f, (executeNodes env filename nodes st).failure = some f →
        f.assertion.isSome = true) ∧
    (∀ (env : ExecEnv) (filename : List Char) (result : RunResult),
      result.exitCode ≠ 0 →
      env.exec 1 none ("ls nonexistent".toList) = .ok result →
      executeNodes env filename
        [.run none ("ls nonexistent".toList) 1,
         .assert (.exitCode none { operator := .ne, value := 0 }) 2
           ("ASSERT exit_code != 0".toList)]
        initExecState =
        { assertionsPassed := 1, failure := none }) := by
  constructor
  · intro env filename nodes
    induction nodes with
    | nil =>
      intro st hexec f hf
      simp [executeNodes] at hf
    | cons node rest ih =>
      intro st hexec f hf
      cases node with
      | pragma p => exact ih st hexec f hf
      | comment t l => exact ih st hexec f hf
      | test nm l => exact ih _ hexec f hf
      | env k v l => exact ih _ hexec f hf
      | run nm cmd l =>
        obtain ⟨r, hr⟩ := hexec (st.runIndex + 1) nm cmd
        simp only [executeNodes] at hf
        rw [hr] at hf
        exact ih _ hexec f hf
      | assert expr l raw =>
        simp only [executeNodes] at hf
        split at hf
        case isTrue => exact ih _ hexec f hf
        case isFalse =>
          simp only [ExecuteResult.mk.injEq] at hf
          cases hf
          rfl
  · intro env filename result hne hexec
    have hdec : (decide (result.exitCode = 0)) = false := by
      simp [hne]
    simp at hexec
    simp [executeNodes, initExecState, hexec, evaluateAssertion,
      resolveTargetResult, evaluateExitCodePredicate, hdec, hne]

/-- Witness for C3: the scenario with a concrete session oracle whose
command exits with code 2. -/
theorem run_nonzero_exit_not_failure_witness :
    executeNodes
      { exec := fun _ _ _ => .ok
          { runId := "r".toList, stdout := [], stdoutRaw := [], stderr := [],
            exitCode := 2, durationMs := 5, stderrPath := [] },
        regexEval := fun _ _ => .ok false,
        fileEval := fun _ _ =>
          { passed := false, expected := [], actual := [], error := none } }
      ("t.hone".toList)
      [.run none ("ls nonexistent".toList) 1,
       .assert (.exitCode none { operator := .ne, value := 0 }) 2
         ("ASSERT exit_code != 0".toList)]
      initExecState =
      { assertionsPassed := 1, failure := none } :=
  run_nonzero_exit_not_failure.2
    { exec := fun _ _ _ => .ok
        { runId := "r".toList, stdout := [], stdoutRaw := [], stderr := [],
          exitCode := 2, durationMs := 5, stderrPath := [] },
      regexEval := fun _ _ => .ok false,
      fileEval := fun _ _ =>
        { passed := false, expected := [], actual := [], error := none } }
    ("t.hone".toList)
    { runId := "r".toList, stdout := [], stdoutRaw := [], stderr := [],
      exitCode := 2, durationMs := 5, stderrPath := [] }
    (by decide) rfl

/-- One parser-loop iteration equals the same iteration started with an
empty collector, with the previously collected errors and warnings
prepended: no line's processing depends on, or discards, earlier
diagnostics. -/
theorem processLine_reset (st : ParserState) (l : List Char) (n : Nat) :
    processLine st l n =
      { processLine (resetCollector st) l n with
        collector := cmerge st.collector (processLine (resetCollector st) l n).collector } := by
  rcases st with ⟨⟨fn, es, ws⟩, prag, nds, rn, ips⟩
  unfold processLine resetCollector creset
  dsimp only
  cases htok : (classifyLine l n).type
  case EMPTY => simp [cmerge]
  case COMMENT => simp [cmerge]
  case UNKNOWN => simp [cmerge, Collector.addError]
  case PRAGMA =>
    cases ips
    case false => simp [cmerge, Collector.addError]
    case true =>
      dsimp only [if_pos]
      rw [parsePragma_reset ((classifyLine l n).content) n ⟨fn, es, ws⟩]
      simp only [creset]
      rcases hP : parsePragma ((classifyLine l n).content) n
        { filename := fn, errors := [], warnings := [] } with ⟨op, c2⟩
      cases op <;> simp [cmerge]
  case TEST =>
    rw [parseTest_reset ((classifyLine l n).content) n ⟨fn, es, ws⟩]
    simp only [creset]
    rcases hP : parseTest ((classifyLine l n).content) n
      { filename := fn, errors := [], warnings := [] } with ⟨op, c2⟩
    cases op <;> simp [cmerge]
  case RUN =>
    rw [parseRun_reset ((classifyLine l n).content) n ⟨fn, es, ws⟩ rn]
    simp only [creset]
    rcases hP : parseRun ((classifyLine l n).content) n
      { filename := fn, errors := [], warnings := [] } rn with ⟨op, c2, rn2⟩
    cases op <;> simp [cmerge]
  case ASSERT =>
    rw [parseAssert_reset ((classifyLine l n).content) n ⟨fn, es, ws⟩]
    simp only [creset]
    rcases hP : parseAssert ((classifyLine l n).content) n
      { filename := fn, errors := [], warnings := [] } with ⟨op, c2⟩
    cases op <;> simp [cmerge]
  case ENV =>
    rw [parseEnv_reset ((classifyLine l n).content) n ⟨fn, es, ws⟩]
    simp only [creset]
    rcases hP : parseEnv ((classifyLine l n).content) n
      { filename := fn, errors := [], warnings := [] } with ⟨op, c2⟩
    cases op <;> simp [cmerge]

/-- `processLine` never changes the collector's filename. -/
theorem processLine_filename (st : ParserState) (l : List Char) (n : Nat) :
    (processLine st l n).collector.filename = st.collector.filename := by
  rw [processLine_reset]
  rfl

/-- The parser loop accumulates diagnostics additively across lines: the
errors and warnings after any run of lines are the initial ones followed by
exactly what those lines contribute from a clean collector. -/
theorem processLines_reset (lines : List (List Char)) :
    ∀ (st : ParserState) (n : Nat),
      (processLines st lines n).collector.errors =
        st.collector.errors ++ (processLines (resetCollector st) lines n).collector.errors ∧
      (processLines st lines n).collector.warnings =
        st.collector.warnings ++ (processLines (resetCollector st) lines n).collector.warnings := by
  induction lines with
  | nil => intro st n; simp [processLines, resetCollector, creset]
  | cons l ls ih =>
    intro st n
    simp only [processLines]
    have hfile : (processLine (resetCollector st) l n).collector.filename =
        st.collector.filename := by
      rw [processLine_filename]
      rfl
    rw [processLine_reset st l n]
    have hres : resetCollector { processLine (resetCollector st) l n with
        collector := cmerge st.collector (processLine (resetCollector st) l n).collector } =
        resetCollector (processLine (resetCollector st) l n) := by
      simp [resetCollector, creset, cmerge, hfile]
      rw [processLine_filename]
    obtain ⟨ihe, ihw⟩ := ih { processLine (resetCollector st) l n with
      collector := cmerge st.collector (processLine (resetCollector st) l n).collector } (n + 1)
    obtain ⟨ihe2, ihw2⟩ := ih (processLine (resetCollector st) l n) (n + 1)
    constructor
    · rw [ihe, hres, ihe2]
      simp [cmerge, List.append_assoc]
    · rw [ihw, hres, ihw2]
      simp [cmerge, List.append_assoc]

/-- C4: `parseFile` succeeds iff zero errors were collected, a failure
carries exactly the collected error list, errors accumulate additively
across all lines in one pass (no earlier error is dropped and no later
line is skipped), and a file with two bad lines reports exactly those two
errors. -/
theorem parseFile_collects_all_errors :
    (∀ content filename,
      (parseSucceeds content filename = true ↔
        parseFileErrors content filename = []) ∧
      (∀ es ws, parseFile content filename = .failure es ws →
        es = parseFileErrors content filename)) ∧
    (∀ (lines : List (List Char)) (st : ParserState) (n : Nat),
      (processLines st lines n).collector.errors =
        st.collector.errors ++
          (processLines (resetCollector st) lines n).collector.errors) ∧
    parseFileErrors ("QUUX\nTEST \"a@b\"\nRUN echo ok".toList) ("t.hone".toList) =
      [{ message := "Unknown statement: QUUX".toList, line := 1,
         filename := "t.hone".toList },
       { message := ("Invalid test name: \"a@b\". Names can only contain alphanumeric characters, spaces, dashes, and underscores".toList),
         line := 2, filename := "t.hone".toList }] := by
  refine ⟨fun content filename => ⟨?_, ?_⟩,
    fun lines st n => (processLines_reset lines st n).1, by decide⟩
  · unfold parseSucceeds parseFile parseFileErrors
    dsimp only
    by_cases he : (processLines (initState filename) (splitOnChar '\n' content) 1).collector.errors = []
    · simp [he]
    · simp [he]
  · intro es ws h
    unfold parseFile at h
    unfold parseFileErrors
    dsimp only at h
    by_cases he : (processLines (initState filename) (splitOnChar '\n' content) 1).collector.errors = []
    · rw [if_pos he] at h
      cases h
    · rw [if_neg he] at h
      cases h
      rfl

/-- Witness for C4: a failing file's reported error list is exactly the
collected one, at a concrete one-error file. -/
theorem parseFile_collects_all_errors_witness :
    [({ message := "Unknown statement: QUUX".toList, line := 1,
        filename := "t.hone".toList } : ParseError)] =
      parseFileErrors ("QUUX".toList) ("t.hone".toList) :=
  (parseFile_collects_all_errors.1 ("QUUX".toList) ("t.hone".toList)).2
    [{ message := "Unknown statement: QUUX".toList, line := 1,
       filename := "t.hone".toList }] [] (by decide)

/-- C7: a named RUN whose name was already used yields a duplicate-name
error attributed to the duplicate's own line (and no node); the run-name
set is carried through TEST lines unchanged, so uniqueness is enforced
across the entire file; concretely, two `RUN build:` lines in different
TEST blocks fail with exactly one duplicate error on the second
occurrence's line. -/
theorem parseRun_duplicate_name :
    (∀ content line c runNames name consumed,
      matchRunName (content.drop 4) = some (name, consumed) →
      name ∈ runNames →
      parseRun content line c runNames =
        (none, c.addError ("Duplicate RUN name: \"".toList ++ name ++
          ("\". RUN names must be unique across the entire file".toList)) line,
          runNames)) ∧
    (∀ st l n, (classifyLine l n).type = .TEST →
      (processLine st l n).runNames = st.runNames) ∧
    parseFile ("TEST \"a\"\nRUN build: echo 1\nTEST \"b\"\nRUN build: echo 2".toList)
        ("t.hone".toList) =
      .failure
        [{ message := ("Duplicate RUN name: \"build\". RUN names must be unique across the entire file".toList),
           line := 4, filename := "t.hone".toList }] [] := by
  refine ⟨fun content line c runNames name consumed hmatch hmem => ?_,
    fun st l n htok => ?_, by decide⟩
  · unfold parseRun
    dsimp only
    rw [hmatch]
    dsimp only
    rw [if_pos hmem]
  · unfold processLine
    dsimp only
    rw [htok]
    rcases hP : parseTest ((classifyLine l n).content) n st.collector with ⟨op, c2⟩
    cases op <;> rfl

/-- Witness for C7: the duplicate-name rule applied at a concrete second
occurrence. -/
theorem parseRun_duplicate_name_witness :
    parseRun ("RUN build: echo 2".toList) 4
        { filename := "t.hone".toList, errors := [], warnings := [] }
        [("build".toList)] =
      (none,
        Collector.addError
          { filename := "t.hone".toList, errors := [], warnings := [] }
          ("Duplicate RUN name: \"".toList ++ "build".toList ++
            ("\". RUN names must be unique across the entire file".toList)) 4,
        [("build".toList)]) :=
  parseRun_duplicate_name.1 ("RUN build: echo 2".toList) 4
    { filename := "t.hone".toList, errors := [], warnings := [] }
    [("build".toList)] ("build".toList) 7 (by decide) (by decide)

/-- The string-literal loop inverts the double-quote escape encoder. -/
theorem pslLoop_escDQ (s : List Char) :
    ∀ acc, pslLoop '"' true (escDQ s ++ ['"']) acc false =
      some (acc ++ s, (escDQ s).length + 1) := by
  induction s with
  | nil => intro acc; simp [escDQ, pslLoop]
  | cons c cs ih =>
    intro acc
    by_cases h1 : c = '\\'
    · subst h1
      simp [escDQ, pslLoop, pslPiece, ih]
      try omega
    by_cases h2 : c = '"'
    · subst h2
      simp [escDQ, pslLoop, pslPiece, ih, h1]
      try omega
    by_cases h3 : c = '\n'
    · subst h3
      simp [escDQ, pslLoop, pslPiece, ih]
      try omega
    by_cases h4 : c = '\t'
    · subst h4
      simp [escDQ, pslLoop, pslPiece, ih]
      try omega
    · simp [escDQ, pslLoop, pslPiece, ih, h1, h2, h3, h4]
      try omega

/-- In single-quote mode the loop copies the consumed text verbatim: on
success the consumed segment is the accumulated value followed by the
closing quote. -/
theorem pslLoop_single (rest : List Char) :
    ∀ acc esc v k, pslLoop '\'' false rest acc esc = some (v, k) →
      ∃ m, k = m + 1 ∧ rest.take k = rest.take m ++ ['\''] ∧
        v = acc ++ (if esc then ['\\'] else []) ++ rest.take m := by
  induction rest with
  | nil => intro acc esc v k h; simp [pslLoop] at h
  | cons c cs ih =>
    intro acc esc v k h
    cases esc
    case true =>
      simp only [pslLoop, if_pos] at h
      rcases hrec : pslLoop '\'' false cs (acc ++ pslPiece false c) false with _ | ⟨v', k'⟩
      · rw [hrec] at h; simp at h
      rw [hrec] at h
      injection h with h3
      injection h3 with hv hk
      obtain ⟨m, hm, htake, hval⟩ := ih (acc ++ pslPiece false c) false v' k' hrec
      subst hm
      have htk : k = m + 1 + 1 := by omega
      subst htk
      have htake2 : cs.take (m + 1) = cs.take m ++ ['\''] := htake
      refine ⟨m + 1, rfl, ?_, ?_⟩
      · simp [List.take_succ_cons, htake2]
      · rw [← hv, hval]
        simp [pslPiece, List.take_succ_cons]
    case false =>
      by_cases hbs : c = '\\'
      · subst hbs
        simp only [pslLoop, Bool.false_eq_true, if_false, if_pos] at h
        rcases hrec : pslLoop '\'' false cs acc true with _ | ⟨v', k'⟩
        · rw [hrec] at h; simp at h
        rw [hrec] at h
        injection h with h3
        injection h3 with hv hk
        obtain ⟨m, hm, htake, hval⟩ := ih acc true v' k' hrec
        subst hm
        have htk : k = m + 1 + 1 := by omega
        subst htk
        have htake2 : cs.take (m + 1) = cs.take m ++ ['\''] := htake
        refine ⟨m + 1, rfl, ?_, ?_⟩
        · simp [List.take_succ_cons, htake2]
        · rw [← hv, hval]
          simp [List.take_succ_cons]
      by_cases hq : c = '\''
      · subst hq
        simp only [pslLoop, Bool.false_eq_true, if_false, if_neg hbs, if_pos] at h
        injection h with h3
        injection h3 with hv hk
        refine ⟨0, hk.symm, ?_, ?_⟩
        · rw [← hk]; simp
        · rw [← hv]; simp
      · simp only [pslLoop, Bool.false_eq_true, if_false, if_neg hbs, if_neg hq] at h
        rcases hrec : pslLoop '\'' false cs (acc ++ [c]) false with _ | ⟨v', k'⟩
        · rw [hrec] at h; simp at h
        rw [hrec] at h
        injection h with h3
        injection h3 with hv hk
        obtain ⟨m, hm, htake, hval⟩ := ih (acc ++ [c]) false v' k' hrec
        subst hm
        have htk : k = m + 1 + 1 := by omega
        subst htk
        have htake2 : cs.take (m + 1) = cs.take m ++ ['\''] := htake
        refine ⟨m + 1, rfl, ?_, ?_⟩
        · simp [List.take_succ_cons, htake2]
        · rw [← hv, hval]
          simp [List.take_succ_cons]

/-- C5: double-quoted literals interpret exactly the escapes
`\n \t \" \\` — encoding any text with those escapes and parsing it
round-trips to the original text; a double-quoted unknown escape keeps its
backslash uninterpreted; and for every successfully parsed single-quoted
literal the value is the raw interior verbatim (no escape interpretation,
backslash sequences pass through unchanged). -/
theorem parseStringLiteral_escapes :
    (∀ s : List Char,
      parseStringLiteral ('"' :: (escDQ s ++ ['"'])) 0 =
        some ({ value := s, raw := '"' :: (escDQ s ++ ['"']), quoteType := .double },
          (escDQ s).length + 2)) ∧
    (∀ c : Char, c ≠ 'n' → c ≠ 't' → c ≠ '"' → c ≠ '\\' →
      parseStringLiteral ['"', '\\', c, '"'] 0 =
        some ({ value := ['\\', c], raw := ['"', '\\', c, '"'], quoteType := .double }, 4)) ∧
    (∀ input i res endIdx, parseStringLiteral input i = some (res, endIdx) →
      res.quoteType = .single →
      res.raw = '\'' :: (res.value ++ ['\''])) := by
  refine ⟨fun s => ?_, fun c h1 h2 h3 h4 => ?_, fun input i res endIdx h hq => ?_⟩
  · have hl := pslLoop_escDQ s []
    simp [parseStringLiteral, hl, List.take_of_length_le]
    try omega
  · simp [parseStringLiteral, pslLoop, pslPiece, h1, h2, h3, h4]
  · simp only [parseStringLiteral] at h
    rcases hdrop : input.drop i with _ | ⟨sc, rest⟩
    · simp only [hdrop] at h
      simp at h
    simp only [hdrop] at h
    by_cases hsc : sc = '"' ∨ sc = '\''
    case neg =>
      rw [if_neg hsc] at h
      simp at h
    case pos =>
      rw [if_pos hsc] at h
      rcases hloop : pslLoop sc (decide (sc = '"')) rest [] false with _ | ⟨v, k⟩
      · rw [hloop] at h
        simp at h
      rw [hloop] at h
      simp only [Option.some.injEq, Prod.mk.injEq] at h
      obtain ⟨hres, hend⟩ := h
      by_cases hdq : sc = '"'
      · exfalso
        subst hres
        simp [hdq] at hq
      · have hsq : sc = '\'' := by
          rcases hsc with hx | hx
          · exact absurd hx hdq
          · exact hx
        subst hsq
        have hdec : (decide (('\'' : Char) = '"')) = false := by decide
        rw [hdec] at hloop
        obtain ⟨m, hm, htake, hval⟩ := pslLoop_single rest [] false v k hloop
        subst hres
        subst hm
        simp only [List.take_succ_cons, htake]
        simp at hval
        simp [hval]

/-- Witness for C5: the round-trip at a concrete text, the unknown escape
at `q`, and the verbatim single-quote law at a concrete literal. -/
theorem parseStringLiteral_escapes_witness :
    parseStringLiteral ('"' :: (escDQ ("a\n\t\"\\b".toList) ++ ['"'])) 0 =
      some ({ value := "a\n\t\"\\b".toList,
              raw := '"' :: (escDQ ("a\n\t\"\\b".toList) ++ ['"']),
              quoteType := .double }, (escDQ ("a\n\t\"\\b".toList)).length + 2) ∧
    parseStringLiteral ['"', '\\', 'q', '"'] 0 =
      some ({ value := ['\\', 'q'], raw := ['"', '\\', 'q', '"'],
              quoteType := .double }, 4) ∧
    (StringLiteral.mk ("x\\ny".toList) ("'x\\ny'".toList) .single).raw =
      '\'' :: ((StringLiteral.mk ("x\\ny".toList) ("'x\\ny'".toList) .single).value ++ ['\'']) :=
  ⟨parseStringLiteral_escapes.1 ("a\n\t\"\\b".toList),
   parseStringLiteral_escapes.2.1 'q' (by decide) (by decide) (by decide) (by decide),
   parseStringLiteral_escapes.2.2 ("'x\\ny'".toList) 0
     (StringLiteral.mk ("x\\ny".toList) ("'x\\ny'".toList) .single) 6 (by decide) rfl⟩

/-- Witness for C10: a buffer holding an incomplete sentinel line is
returned untouched. -/
theorem extractSentinel_not_found_preserves_buffer_witness :
    (extractSentinel ("out\n__HONE__\x1fid\x1f0".toList) ("id".toList)).output =
        "out\n__HONE__\x1fid\x1f0".toList ∧
    (extractSentinel ("out\n__HONE__\x1fid\x1f0".toList) ("id".toList)).remaining = [] :=
  extractSentinel_not_found_preserves_buffer ("out\n__HONE__\x1fid\x1f0".toList)
    ("id".toList) (by decide)

end Hone
